import Mathlib

/-!
Shallow embedding of the spark-map streaming event-log parser
(`src/spark_map/core/parser.py`), its pydantic data model
(`src/spark_map/models/schemas.py`), and the spill / shuffle / io detectors
(`src/spark_map/core/detectors/`), together with proofs about the embedded
code.

Modelling conventions:
* Python ints are `Int` (or `Nat` where the source value is a count that the
  code only ever increments from 0); epoch-millisecond timestamps obtained via
  `event.get("Timestamp")` are `Option Int` (`None` when the key is missing).
* A decoded event line is the inductive `SparkEvent`, carrying exactly the
  fields the parser reads, with the `dict.get` defaults already applied.
* The process-global RNG consumed by `random.randint` is an explicit draw
  stream `rng : Nat → Nat` together with a running draw counter; the `t`-th
  call of `randint(0, n-1)` returns `rng t % n`.
* Percentile arithmetic (Python floats) is modelled over `ℚ`; Python `int()`
  truncation toward zero is `pyInt`.
* pydantic `Field(ge=0)` validation, which raises `ValidationError` on a
  violating construction, is modelled by validity predicates; `parse_eventlog`
  returns `Except Unit SparkMetrics` and errors exactly when some constructed
  model object violates a `ge=0` bound.
-/

namespace SparkMap

/-- Fields of `Task Info` read by the parser (`task_info.get(...)`). -/
structure TaskInfo where
  executor_id : String
  launch_time : Int
  finish_time : Int
  failed : Bool
deriving DecidableEq

/-- Numeric fields of `Task Metrics` read by `_StageAggregator.add_task`,
with the `.get(..., 0)` defaults already applied. -/
structure TaskMetricsData where
  bytes_read : Int
  records_read : Int
  bytes_written : Int
  records_written : Int
  remote_bytes_read : Int
  local_bytes_read : Int
  shuffle_bytes_written : Int
  memory_bytes_spilled : Int
  disk_bytes_spilled : Int
deriving DecidableEq

/-- A decoded event-log line, discriminated on the `Event` field.
`other` stands for any event type the parser ignores. -/
inductive SparkEvent where
  | applicationStart (app_id app_name : String) (timestamp : Option Int)
  | applicationEnd (timestamp : Option Int)
  | stageSubmitted (stage_id : Int) (stage_name : String) (number_of_tasks : Int)
      (timestamp : Option Int)
  | stageCompleted (stage_id : Int) (number_of_failed_tasks : Int) (timestamp : Option Int)
  | taskEnd (stage_id : Int) (info : TaskInfo) (tm : TaskMetricsData)
  | executorAdded (executor_id : String)
  | other
deriving DecidableEq

/-- State of `_StageAggregator`.  `duration_min : Option Nat` models the
`float("inf")` initial value (`none` = infinity). -/
structure StageAggregator where
  stage_id : Int
  stage_name : String
  expected_tasks : Int
  submission_time_ms : Option Int
  completion_time_ms : Option Int
  num_failed_tasks : Int
  task_count : Nat
  duration_min : Option Nat
  duration_max : Nat
  duration_sum : Nat
  duration_reservoir : List Nat
  reservoir_count : Nat
  input_bytes : Int
  input_records : Int
  output_bytes : Int
  output_records : Int
  shuffle_read_bytes : Int
  shuffle_write_bytes : Int
  memory_bytes_spilled : Int
  disk_bytes_spilled : Int
deriving DecidableEq

/-- `_StageAggregator.RESERVOIR_SIZE`. -/
def RESERVOIR_SIZE : Nat := 1000

/-- `_StageAggregator.__init__`. -/
def StageAggregator.init (stage_id : Int) (stage_name : String) (expected_tasks : Int)
    (submission_time_ms : Option Int) : StageAggregator :=
  { stage_id := stage_id
    stage_name := stage_name
    expected_tasks := expected_tasks
    submission_time_ms := submission_time_ms
    completion_time_ms := none
    num_failed_tasks := 0
    task_count := 0
    duration_min := none
    duration_max := 0
    duration_sum := 0
    duration_reservoir := []
    reservoir_count := 0
    input_bytes := 0
    input_records := 0
    output_bytes := 0
    output_records := 0
    shuffle_read_bytes := 0
    shuffle_write_bytes := 0
    memory_bytes_spilled := 0
    disk_bytes_spilled := 0 }

/-- Task duration as computed in `add_task`:
`duration = finish - launch if finish > launch else 0`. -/
def task_duration (info : TaskInfo) : Nat :=
  if info.launch_time < info.finish_time then (info.finish_time - info.launch_time).toNat else 0

/-- `_StageAggregator.add_task`.  `rng`/`draws` model the process-global RNG:
the single `random.randint(0, self._reservoir_count - 1)` call in the
reservoir-full branch consumes one draw. -/
def add_task (rng : Nat → Nat) (draws : Nat) (agg : StageAggregator)
    (info : TaskInfo) (tm : TaskMetricsData) : StageAggregator × Nat :=
  let duration := task_duration info
  let duration_min' : Option Nat :=
    match agg.duration_min with
    | none => some duration
    | some m => some (min m duration)
  let rcount := agg.reservoir_count + 1
  let res := agg.duration_reservoir
  let resAndDraws : List Nat × Nat :=
    if res.length < RESERVOIR_SIZE then (res ++ [duration], draws)
    else
      let j := rng draws % rcount
      (if j < RESERVOIR_SIZE then res.set j duration else res, draws + 1)
  ({ agg with
      task_count := agg.task_count + 1
      duration_min := duration_min'
      duration_max := max agg.duration_max duration
      duration_sum := agg.duration_sum + duration
      duration_reservoir := resAndDraws.1
      reservoir_count := rcount
      input_bytes := agg.input_bytes + tm.bytes_read
      input_records := agg.input_records + tm.records_read
      output_bytes := agg.output_bytes + tm.bytes_written
      output_records := agg.output_records + tm.records_written
      shuffle_read_bytes := agg.shuffle_read_bytes + (tm.remote_bytes_read + tm.local_bytes_read)
      shuffle_write_bytes := agg.shuffle_write_bytes + tm.shuffle_bytes_written
      memory_bytes_spilled := agg.memory_bytes_spilled + tm.memory_bytes_spilled
      disk_bytes_spilled := agg.disk_bytes_spilled + tm.disk_bytes_spilled
      num_failed_tasks :=
        if info.failed then agg.num_failed_tasks + 1 else agg.num_failed_tasks },
   resAndDraws.2)

/-- Python `int()` applied to a fraction: truncation toward zero.
(`Rat.floor`/`Rat.ceil` are the kernel-computable floor and ceiling.) -/
def pyInt (q : ℚ) : Int := if 0 ≤ q then q.floor else q.ceil

/-- The `_percentile` function of parser.py.  `f = int(k)`: every call site in
the repository passes `p ∈ {50, 75, 90, 99}`, so `k ≥ 0` and `int(k) = ⌊k⌋`. -/
def percentile (sorted_data : List Nat) (p : ℚ) : ℚ :=
  if sorted_data.isEmpty then 0
  else
    let n : Nat := sorted_data.length
    let k : ℚ := ((n : ℚ) - 1) * (p / 100)
    let f : Nat := k.floor.toNat
    let c : Nat := if f + 1 < n then f + 1 else f
    if f = c then (sorted_data.getD f 0 : ℚ)
    else (sorted_data.getD f 0 : ℚ) * ((c : ℚ) - k) + (sorted_data.getD c 0 : ℚ) * (k - (f : ℚ))

/-- Result record of `_StageAggregator.to_stage_metrics` (pydantic model
`StageMetrics`, schemas.py). -/
structure StageMetrics where
  stage_id : Int
  stage_name : String
  num_tasks : Nat
  submission_time_ms : Option Int
  completion_time_ms : Option Int
  duration_ms : Int
  task_duration_min_ms : Int
  task_duration_max_ms : Int
  task_duration_median_ms : Int
  task_duration_p75_ms : Int
  task_duration_p90_ms : Int
  task_duration_p99_ms : Int
  input_bytes : Int
  input_records : Int
  output_bytes : Int
  output_records : Int
  shuffle_read_bytes : Int
  shuffle_write_bytes : Int
  memory_bytes_spilled : Int
  disk_bytes_spilled : Int
  num_failed_tasks : Int
deriving DecidableEq

/-- `_StageAggregator.to_stage_metrics`.  `sorted(...)` is insertion sort (the
ascending permutation); `int(...)` is `pyInt`; the
`if self.submission_time_ms and self.completion_time_ms` guard uses Python
truthiness, so a missing (`None`) or `0` endpoint leaves the duration at 0. -/
def to_stage_metrics (agg : StageAggregator) : StageMetrics :=
  let sorted_durations := List.insertionSort (· ≤ ·) agg.duration_reservoir
  let duration_median : Int :=
    if agg.duration_reservoir.isEmpty then 0 else pyInt (percentile sorted_durations 50)
  let duration_p75 : Int :=
    if agg.duration_reservoir.isEmpty then 0 else pyInt (percentile sorted_durations 75)
  let duration_p90 : Int :=
    if agg.duration_reservoir.isEmpty then 0 else pyInt (percentile sorted_durations 90)
  let duration_p99 : Int :=
    if agg.duration_reservoir.isEmpty then 0 else pyInt (percentile sorted_durations 99)
  let stage_duration : Int :=
    match agg.submission_time_ms, agg.completion_time_ms with
    | some s, some c => if s ≠ 0 ∧ c ≠ 0 then c - s else 0
    | _, _ => 0
  { stage_id := agg.stage_id
    stage_name := agg.stage_name
    num_tasks := agg.task_count
    submission_time_ms := agg.submission_time_ms
    completion_time_ms := agg.completion_time_ms
    duration_ms := stage_duration
    task_duration_min_ms := (match agg.duration_min with | some m => (m : Int) | none => 0)
    task_duration_max_ms := (agg.duration_max : Int)
    task_duration_median_ms := duration_median
    task_duration_p75_ms := duration_p75
    task_duration_p90_ms := duration_p90
    task_duration_p99_ms := duration_p99
    input_bytes := agg.input_bytes
    input_records := agg.input_records
    output_bytes := agg.output_bytes
    output_records := agg.output_records
    shuffle_read_bytes := agg.shuffle_read_bytes
    shuffle_write_bytes := agg.shuffle_write_bytes
    memory_bytes_spilled := agg.memory_bytes_spilled
    disk_bytes_spilled := agg.disk_bytes_spilled
    num_failed_tasks := agg.num_failed_tasks }

/-- Result record of `_extract_metrics_streaming` (pydantic model
`SparkMetrics`, schemas.py). -/
structure SparkMetrics where
  app_id : String
  app_name : String
  start_time_ms : Option Int
  end_time_ms : Option Int
  total_duration_ms : Int
  num_stages : Nat
  num_completed_stages : Nat
  num_failed_stages : Nat
  stages : List StageMetrics
  num_tasks : Nat
  num_completed_tasks : Int
  num_failed_tasks : Int
  num_executors : Nat
  executor_ids : List String
  total_input_bytes : Int
  total_output_bytes : Int
  total_shuffle_read_bytes : Int
  total_shuffle_write_bytes : Int
  total_disk_bytes_spilled : Int
deriving DecidableEq

/-- `stages: dict[int, _StageAggregator]`: an insertion-ordered association
list with distinct keys.  Assignment to an existing key keeps its position
(CPython dict semantics); a new key is appended. -/
def dict_set (m : List (Int × StageAggregator)) (k : Int) (v : StageAggregator) :
    List (Int × StageAggregator) :=
  match m with
  | [] => [(k, v)]
  | (k', v') :: rest => if k' = k then (k, v) :: rest else (k', v') :: dict_set rest k v

/-- Dictionary lookup (`stage_id in stages` / `stages[stage_id]`). -/
def dict_get (m : List (Int × StageAggregator)) (k : Int) : Option StageAggregator :=
  match m with
  | [] => none
  | (k', v') :: rest => if k' = k then some v' else dict_get rest k

/-- `executors: set[str]`, as an insertion-ordered duplicate-free list. -/
def set_insert (s : List String) (x : String) : List String :=
  if x ∈ s then s else s ++ [x]

/-- Mutable state of the `_extract_metrics_streaming` event loop, plus the
draw counter of the process-global RNG. -/
structure ParseState where
  app_id : String
  app_name : String
  start_time : Option Int
  end_time : Option Int
  stages : List (Int × StageAggregator)
  executors : List String
  draws : Nat

/-- State before the first event. -/
def initial_state : ParseState :=
  { app_id := "", app_name := "", start_time := none, end_time := none,
    stages := [], executors := [], draws := 0 }

/-- One iteration of the event loop in `_extract_metrics_streaming`. -/
def step (rng : Nat → Nat) (st : ParseState) (ev : SparkEvent) : ParseState :=
  match ev with
  | .applicationStart app_id app_name ts =>
      { st with app_id := app_id, app_name := app_name, start_time := ts }
  | .applicationEnd ts => { st with end_time := ts }
  | .stageSubmitted sid name ntasks ts =>
      { st with stages := dict_set st.stages sid (StageAggregator.init sid name ntasks ts) }
  | .stageCompleted sid nfailed ts =>
      match dict_get st.stages sid with
      | some agg =>
          let agg' := { agg with completion_time_ms := ts, num_failed_tasks := nfailed }
          { st with stages := dict_set st.stages sid agg' }
      | none => st
  | .taskEnd sid info tm =>
      let st' := { st with executors := set_insert st.executors info.executor_id }
      match dict_get st'.stages sid with
      | some agg =>
          let r := add_task rng st'.draws agg info tm
          { st' with stages := dict_set st'.stages sid r.1, draws := r.2 }
      | none => st'
  | .executorAdded eid => { st with executors := set_insert st.executors eid }
  | .other => st

/-- `_extract_metrics_streaming`: fold the event loop, freeze every aggregator,
sort the stage snapshots by stage id, and assemble the application totals. -/
def extract_metrics_streaming (events : List SparkEvent) (rng : Nat → Nat) : SparkMetrics :=
  let st := events.foldl (step rng) initial_state
  let stage_metrics_list :=
    List.insertionSort (fun a b => a.stage_id ≤ b.stage_id)
      (st.stages.map (fun p => to_stage_metrics p.2))
  let total_duration : Int :=
    match st.start_time, st.end_time with
    | some s, some e => e - s
    | _, _ => 0
  { app_id := st.app_id
    app_name := st.app_name
    start_time_ms := st.start_time
    end_time_ms := st.end_time
    total_duration_ms := total_duration
    num_stages := st.stages.length
    num_completed_stages := (stage_metrics_list.filter (fun s => s.num_failed_tasks = 0)).length
    num_failed_stages := (stage_metrics_list.filter (fun s => s.num_failed_tasks > 0)).length
    stages := stage_metrics_list
    num_tasks := (stage_metrics_list.map (fun s => s.num_tasks)).sum
    num_completed_tasks :=
      (stage_metrics_list.map (fun s => (s.num_tasks : Int) - s.num_failed_tasks)).sum
    num_failed_tasks := (stage_metrics_list.map (fun s => s.num_failed_tasks)).sum
    num_executors := st.executors.length
    executor_ids := st.executors
    total_input_bytes := (stage_metrics_list.map (fun s => s.input_bytes)).sum
    total_output_bytes := (stage_metrics_list.map (fun s => s.output_bytes)).sum
    total_shuffle_read_bytes := (stage_metrics_list.map (fun s => s.shuffle_read_bytes)).sum
    total_shuffle_write_bytes := (stage_metrics_list.map (fun s => s.shuffle_write_bytes)).sum
    total_disk_bytes_spilled := (stage_metrics_list.map (fun s => s.disk_bytes_spilled)).sum }

/-- The pydantic `ge=0` bounds of `StageMetrics` (schemas.py); `num_tasks` is a
`Nat` here, so its bound holds by type.  A violating construction raises
`ValidationError` in the source. -/
def stage_metrics_valid (s : StageMetrics) : Bool :=
  0 ≤ s.duration_ms && 0 ≤ s.task_duration_min_ms && 0 ≤ s.task_duration_max_ms &&
  0 ≤ s.task_duration_median_ms && 0 ≤ s.task_duration_p75_ms && 0 ≤ s.task_duration_p90_ms &&
  0 ≤ s.task_duration_p99_ms && 0 ≤ s.input_bytes && 0 ≤ s.input_records &&
  0 ≤ s.output_bytes && 0 ≤ s.output_records && 0 ≤ s.shuffle_read_bytes &&
  0 ≤ s.shuffle_write_bytes && 0 ≤ s.memory_bytes_spilled && 0 ≤ s.disk_bytes_spilled &&
  0 ≤ s.num_failed_tasks

/-- The pydantic `ge=0` bounds of `SparkMetrics` (schemas.py) on its `Int`
fields. -/
def spark_metrics_valid (m : SparkMetrics) : Bool :=
  0 ≤ m.total_duration_ms && 0 ≤ m.num_completed_tasks && 0 ≤ m.num_failed_tasks &&
  0 ≤ m.total_input_bytes && 0 ≤ m.total_output_bytes && 0 ≤ m.total_shuffle_read_bytes &&
  0 ≤ m.total_shuffle_write_bytes && 0 ≤ m.total_disk_bytes_spilled

/-- `parse_eventlog(path, streaming=True)` on the decoded event list: build
the metrics and apply the pydantic validation; `.error` models an escaping
`ValidationError`. -/
def parse_eventlog (events : List SparkEvent) (rng : Nat → Nat) : Except Unit SparkMetrics :=
  let m := extract_metrics_streaming events rng
  if m.stages.all stage_metrics_valid && spark_metrics_valid m then .ok m else .error ()

/-- Severity levels (findings.py). -/
inductive Severity where
  | critical
  | warning
  | info
deriving DecidableEq

/-- A finding (findings.py), restricted to the fields the detector rules
decide: identity, detector tag, severity and affected stage ids.  The prose
fields (title, description, metric evidence, mitigation data) are formatting
of the same inputs and are not modelled. -/
structure Finding where
  id : String
  detector : String
  severity : Severity
  stage_ids : List Int
deriving DecidableEq

/-- `ThresholdConfig` (schemas.py).  Field spelling differs from the source
where needed: `skewThreshold` is `skew_ratio`, `shuffleExplosionThreshold` is
`shuffle_explosion_ratio`, `ioDominantThreshold` is `io_dominant_ratio`,
`minSpillMb` is `min_spill_mb`, and so on. -/
structure ThresholdConfig where
  skewThreshold : ℚ
  shuffleExplosionThreshold : ℚ
  minSpillMb : Int
  minTasksForInefficiency : Int
  maxTaskRuntimeMsForInefficiency : Int
  ioDominantThreshold : ℚ
  maxResultSizeMb : Int
  maxSchedulingDelayMs : Int
deriving DecidableEq

/-- The pydantic defaults of `ThresholdConfig`. -/
def default_thresholds : ThresholdConfig :=
  { skewThreshold := 10
    shuffleExplosionThreshold := 5
    minSpillMb := 100
    minTasksForInefficiency := 200
    maxTaskRuntimeMsForInefficiency := 100
    ioDominantThreshold := 7/10
    maxResultSizeMb := 50
    maxSchedulingDelayMs := 1000 }

/-- `MB = 1024 * 1024` (spill.py). -/
def MB : Int := 1024 * 1024

/-- Loop body of `IOBottleneckDetector.detect` for one stage: the findings
appended while visiting that stage, in order.  The shuffle-read rule and the
input rule are two independent `if` statements in the source. -/
def io_stage_findings (stage : StageMetrics) : List Finding :=
  if stage.duration_ms = 0 then []
  else
    let shuffle_part :=
      if stage.shuffle_read_bytes > 0 then
        let shuffle_per_task_mb : ℚ :=
          if stage.num_tasks > 0 then
            ((stage.shuffle_read_bytes : ℚ) / (stage.num_tasks : ℚ)) / (1024 * 1024)
          else 0
        if shuffle_per_task_mb > 100 ∧ stage.task_duration_median_ms > 10000 then
          [{ id := "io-shuffle-stage-" ++ toString stage.stage_id, detector := "io",
             severity := .warning, stage_ids := [stage.stage_id] }]
        else []
      else []
    let input_part :=
      if stage.input_bytes > 0 then
        let input_per_task_mb : ℚ :=
          if stage.num_tasks > 0 then
            ((stage.input_bytes : ℚ) / (stage.num_tasks : ℚ)) / (1024 * 1024)
          else 0
        if input_per_task_mb > 500 ∧ stage.task_duration_median_ms > 30000 then
          [{ id := "io-input-stage-" ++ toString stage.stage_id, detector := "io",
             severity := .info, stage_ids := [stage.stage_id] }]
        else []
      else []
    shuffle_part ++ input_part

/-- `IOBottleneckDetector.detect`: the per-stage loop appends
`io_stage_findings` of every stage in order. -/
def io_detect (metrics : SparkMetrics) : List Finding :=
  (metrics.stages.map io_stage_findings).flatten

/-- Loop body of `SpillDetector.detect` for one stage. -/
def spill_stage_findings (thresholds : ThresholdConfig) (stage : StageMetrics) : List Finding :=
  let disk_spill_mb : ℚ := (stage.disk_bytes_spilled : ℚ) / (MB : ℚ)
  if disk_spill_mb ≥ (thresholds.minSpillMb : ℚ) then
    let severity : Severity :=
      if disk_spill_mb > (thresholds.minSpillMb : ℚ) * 10 then .critical
      else if disk_spill_mb > (thresholds.minSpillMb : ℚ) * 3 then .warning
      else .info
    [{ id := "spill-stage-" ++ toString stage.stage_id, detector := "spill",
       severity := severity, stage_ids := [stage.stage_id] }]
  else []

/-- `SpillDetector.detect`: per-stage findings in stage order, then the
application-wide `spill-total` check. -/
def spill_detect (thresholds : ThresholdConfig) (metrics : SparkMetrics) : List Finding :=
  let per_stage := (metrics.stages.map (spill_stage_findings thresholds)).flatten
  let total_spill_mb : ℚ := (metrics.total_disk_bytes_spilled : ℚ) / (MB : ℚ)
  let total_part :=
    if total_spill_mb ≥ (thresholds.minSpillMb : ℚ) * 5 then
      [{ id := "spill-total", detector := "spill", severity := .warning,
         stage_ids := (metrics.stages.filter (fun s => s.disk_bytes_spilled > 0)).map
           (fun s => s.stage_id) }]
    else []
  per_stage ++ total_part

/-- Loop body of `ShuffleExplosionDetector.detect` for one stage. -/
def shuffle_stage_findings (thresholds : ThresholdConfig) (stage : StageMetrics) : List Finding :=
  if stage.input_bytes = 0 then []
  else if stage.shuffle_write_bytes > 0 then
    let r : ℚ := (stage.shuffle_write_bytes : ℚ) / (stage.input_bytes : ℚ)
    if r ≥ thresholds.shuffleExplosionThreshold then
      let severity : Severity :=
        if r > thresholds.shuffleExplosionThreshold * 2 then .critical else .warning
      [{ id := "shuffle-explosion-stage-" ++ toString stage.stage_id, detector := "shuffle",
         severity := severity, stage_ids := [stage.stage_id] }]
    else []
  else []

/-- `ShuffleExplosionDetector.detect`: per-stage findings in stage order, then
the application-wide `shuffle-explosion-global` check. -/
def shuffle_detect (thresholds : ThresholdConfig) (metrics : SparkMetrics) : List Finding :=
  let per_stage := (metrics.stages.map (shuffle_stage_findings thresholds)).flatten
  let global_part :=
    if metrics.total_input_bytes > 0 then
      let total_shuffle := metrics.total_shuffle_read_bytes + metrics.total_shuffle_write_bytes
      let total_r : ℚ := (total_shuffle : ℚ) / (metrics.total_input_bytes : ℚ)
      if total_r ≥ thresholds.shuffleExplosionThreshold * 2 then
        [{ id := "shuffle-explosion-global", detector := "shuffle",
           severity := .warning, stage_ids := [] }]
      else []
    else []
  per_stage ++ global_part

/-- Modelled from the spec for a refinement comparison: the percentile
interpolation formula exactly as §4.2 words it,
`q = S[⌊k⌋] · (⌈k⌉−k) + S[⌈k⌉] · (k−⌊k⌋)` with `k = (len−1) · p/100`. -/
def spec_percentile_formula (sorted_data : List Nat) (p : ℚ) : ℚ :=
  let n : Nat := sorted_data.length
  let k : ℚ := ((n : ℚ) - 1) * (p / 100)
  (sorted_data.getD k.floor.toNat 0 : ℚ) * ((k.ceil : ℚ) - k)
    + (sorted_data.getD k.ceil.toNat 0 : ℚ) * (k - (k.floor : ℚ))

/-! Auxiliary lemmas: the computable `Rat.floor` / `Rat.ceil` agree with the
`FloorRing` floor and ceiling. -/

theorem rat_floor_eq (q : ℚ) : q.floor = ⌊q⌋ := by
  rw [Rat.floor_def', Rat.floor_def]

theorem rat_ceil_eq (q : ℚ) : q.ceil = ⌈q⌉ := by
  unfold Rat.ceil
  split
  · next h =>
    have hq : ((q.num : ℚ)) = q := (Rat.den_eq_one_iff q).mp h
    conv_rhs => rw [← hq]
    exact (Int.ceil_intCast q.num).symm
  · next h =>
    have hfl : q.num / (q.den : ℤ) = ⌊q⌋ := Rat.floor_def.symm
    rw [hfl]
    have h1 : (⌊q⌋ : ℚ) < q := by
      rcases lt_or_eq_of_le (Int.floor_le q) with h' | h'
      · exact h'
      · exact absurd (h' ▸ Rat.den_intCast ⌊q⌋) h
    have h2 : ⌊q⌋ < ⌈q⌉ := by exact_mod_cast lt_of_lt_of_le h1 (Int.le_ceil q)
    have h3 : ⌈q⌉ ≤ ⌊q⌋ + 1 := Int.ceil_le_floor_add_one q
    omega

/-- Indexing a sorted list is monotone. -/
theorem sorted_getD_mono {S : List Nat} (hs : List.Sorted (· ≤ ·) S) {i j : Nat}
    (hij : i ≤ j) (hj : j < S.length) : S.getD i 0 ≤ S.getD j 0 := by
  rcases lt_or_eq_of_le hij with hlt | rfl
  · rw [List.getD_eq_getElem _ _ (lt_trans hlt hj), List.getD_eq_getElem _ _ hj]
    exact List.pairwise_iff_getElem.mp hs i j (lt_trans hlt hj) hj hlt
  · exact le_refl _

/-- An in-range `getD` is a member of the list. -/
theorem getD_mem {S : List Nat} {i : Nat} (hi : i < S.length) : S.getD i 0 ∈ S := by
  rw [List.getD_eq_getElem _ _ hi]
  exact List.getElem_mem hi

/-! Named forms of the intermediate values of `percentile` (its `let`
bindings), used to state lemmas about it. -/

/-- The interpolation position `k = (len - 1) * p / 100` of `percentile`. -/
def pct_k (S : List Nat) (p : ℚ) : ℚ := ((S.length : ℚ) - 1) * (p / 100)

/-- The lower index `f = int(k)` of `percentile`. -/
def pct_f (S : List Nat) (p : ℚ) : Nat := (pct_k S p).floor.toNat

/-- The upper index `c` of `percentile`. -/
def pct_c (S : List Nat) (p : ℚ) : Nat :=
  if pct_f S p + 1 < S.length then pct_f S p + 1 else pct_f S p

theorem percentile_eq_body : ∀ {S : List Nat}, S ≠ [] → ∀ p : ℚ,
    percentile S p =
      if pct_f S p = pct_c S p then (S.getD (pct_f S p) 0 : ℚ)
      else (S.getD (pct_f S p) 0 : ℚ) * ((pct_c S p : ℚ) - pct_k S p)
        + (S.getD (pct_c S p) 0 : ℚ) * (pct_k S p - (pct_f S p : ℚ))
  | [], h, _ => absurd rfl h
  | _ :: _, _, _ => rfl

theorem pct_k_nonneg {S : List Nat} (hne : S ≠ []) {p : ℚ} (hp0 : 0 ≤ p) :
    0 ≤ pct_k S p := by
  have hlen : 0 < S.length := List.length_pos.mpr hne
  have h1 : (1 : ℚ) ≤ (S.length : ℚ) := by exact_mod_cast hlen
  exact mul_nonneg (by linarith) (div_nonneg hp0 (by norm_num))

theorem pct_k_le {S : List Nat} (hne : S ≠ []) {p : ℚ} (hp1 : p ≤ 100) :
    pct_k S p ≤ (S.length : ℚ) - 1 := by
  have hlen : 0 < S.length := List.length_pos.mpr hne
  have h1 : (1 : ℚ) ≤ (S.length : ℚ) := by exact_mod_cast hlen
  have hp100 : p / 100 ≤ 1 := (div_le_one (by norm_num : (0:ℚ) < 100)).mpr hp1
  exact mul_le_of_le_one_right (by linarith) hp100

theorem pct_f_cast {S : List Nat} (hne : S ≠ []) {p : ℚ} (hp0 : 0 ≤ p) :
    ((pct_f S p : ℚ)) = ((pct_k S p).floor : ℚ) := by
  have h0 : (0 : ℤ) ≤ (pct_k S p).floor := by
    rw [rat_floor_eq]
    exact Int.le_floor.mpr (by exact_mod_cast pct_k_nonneg hne hp0)
  have h1 : (((pct_k S p).floor.toNat : ℤ)) = (pct_k S p).floor := Int.toNat_of_nonneg h0
  unfold pct_f
  exact_mod_cast h1

theorem pct_f_le_k {S : List Nat} (hne : S ≠ []) {p : ℚ} (hp0 : 0 ≤ p) :
    ((pct_f S p : ℚ)) ≤ pct_k S p := by
  rw [pct_f_cast hne hp0, rat_floor_eq]
  exact Int.floor_le _

theorem pct_f_lt_len {S : List Nat} (hne : S ≠ []) {p : ℚ} (hp0 : 0 ≤ p) (hp1 : p ≤ 100) :
    pct_f S p < S.length := by
  have h1 : ((pct_f S p : ℚ)) ≤ (S.length : ℚ) - 1 :=
    le_trans (pct_f_le_k hne hp0) (pct_k_le hne hp1)
  have h2 : ((pct_f S p : ℚ)) + 1 ≤ (S.length : ℚ) := by linarith
  exact_mod_cast h2

theorem pct_c_lt_len {S : List Nat} (hne : S ≠ []) {p : ℚ} (hp0 : 0 ≤ p) (hp1 : p ≤ 100) :
    pct_c S p < S.length := by
  unfold pct_c
  split
  · assumption
  · exact pct_f_lt_len hne hp0 hp1

theorem pct_f_le_c (S : List Nat) (p : ℚ) : pct_f S p ≤ pct_c S p := by
  unfold pct_c
  split <;> omega

theorem pct_c_le_f_add_one (S : List Nat) (p : ℚ) : pct_c S p ≤ pct_f S p + 1 := by
  unfold pct_c
  split <;> omega

theorem pct_k_le_c {S : List Nat} (hne : S ≠ []) {p : ℚ} (hp0 : 0 ≤ p) (hp1 : p ≤ 100) :
    pct_k S p ≤ (pct_c S p : ℚ) := by
  unfold pct_c
  split
  · next h =>
    have hlt : pct_k S p < ((pct_k S p).floor : ℚ) + 1 := by
      rw [rat_floor_eq]
      exact Int.lt_floor_add_one _
    rw [← pct_f_cast hne hp0] at hlt
    push_cast
    linarith
  · next h =>
    have hf : pct_f S p < S.length := pct_f_lt_len hne hp0 hp1
    have hfe : pct_f S p = S.length - 1 := by omega
    have hlen : 0 < S.length := List.length_pos.mpr hne
    have : ((pct_f S p : ℚ)) = (S.length : ℚ) - 1 := by
      rw [hfe]
      have h1 : (1 : ℚ) ≤ (S.length : ℚ) := by exact_mod_cast hlen
      push_cast [Nat.cast_sub hlen]
      ring
    rw [this]
    exact pct_k_le hne hp1

theorem percentile_lower {S : List Nat} (hs : List.Sorted (· ≤ ·) S) (hne : S ≠ [])
    {p : ℚ} (hp0 : 0 ≤ p) (hp1 : p ≤ 100) :
    (S.getD (pct_f S p) 0 : ℚ) ≤ percentile S p := by
  rw [percentile_eq_body hne]
  split
  · exact le_refl _
  · next h =>
    have hcn : pct_c S p < S.length := pct_c_lt_len hne hp0 hp1
    have hfc : S.getD (pct_f S p) 0 ≤ S.getD (pct_c S p) 0 :=
      sorted_getD_mono hs (pct_f_le_c S p) hcn
    have hfcq : (S.getD (pct_f S p) 0 : ℚ) ≤ (S.getD (pct_c S p) 0 : ℚ) := by
      exact_mod_cast hfc
    have hkf : ((pct_f S p : ℚ)) ≤ pct_k S p := pct_f_le_k hne hp0
    have hkc : pct_k S p ≤ (pct_c S p : ℚ) := pct_k_le_c hne hp0 hp1
    have hc : pct_c S p = pct_f S p + 1 := by
      have h1 := pct_c_le_f_add_one S p
      have h2 := pct_f_le_c S p
      omega
    rw [hc] at hkc hfcq ⊢
    push_cast at hkc ⊢
    nlinarith [mul_nonneg (sub_nonneg.mpr hkf) (sub_nonneg.mpr hfcq)]

theorem percentile_upper {S : List Nat} (hs : List.Sorted (· ≤ ·) S) (hne : S ≠ [])
    {p : ℚ} (hp0 : 0 ≤ p) (hp1 : p ≤ 100) :
    percentile S p ≤ (S.getD (pct_c S p) 0 : ℚ) := by
  rw [percentile_eq_body hne]
  split
  · next h =>
    rw [h]
  · next h =>
    have hcn : pct_c S p < S.length := pct_c_lt_len hne hp0 hp1
    have hfc : S.getD (pct_f S p) 0 ≤ S.getD (pct_c S p) 0 :=
      sorted_getD_mono hs (pct_f_le_c S p) hcn
    have hfcq : (S.getD (pct_f S p) 0 : ℚ) ≤ (S.getD (pct_c S p) 0 : ℚ) := by
      exact_mod_cast hfc
    have hkf : ((pct_f S p : ℚ)) ≤ pct_k S p := pct_f_le_k hne hp0
    have hkc : pct_k S p ≤ (pct_c S p : ℚ) := pct_k_le_c hne hp0 hp1
    have hc : pct_c S p = pct_f S p + 1 := by
      have h1 := pct_c_le_f_add_one S p
      have h2 := pct_f_le_c S p
      omega
    rw [hc] at hkc hfcq ⊢
    push_cast at hkc ⊢
    nlinarith [mul_nonneg (sub_nonneg.mpr hkc) (sub_nonneg.mpr hfcq)]

theorem percentile_ge_head {S : List Nat} (hs : List.Sorted (· ≤ ·) S) (hne : S ≠ [])
    {p : ℚ} (hp0 : 0 ≤ p) (hp1 : p ≤ 100) :
    (S.getD 0 0 : ℚ) ≤ percentile S p := by
  refine le_trans ?_ (percentile_lower hs hne hp0 hp1)
  exact_mod_cast sorted_getD_mono hs (Nat.zero_le _) (pct_f_lt_len hne hp0 hp1)

theorem percentile_le_last {S : List Nat} (hs : List.Sorted (· ≤ ·) S) (hne : S ≠ [])
    {p : ℚ} (hp0 : 0 ≤ p) (hp1 : p ≤ 100) :
    percentile S p ≤ (S.getD (S.length - 1) 0 : ℚ) := by
  refine le_trans (percentile_upper hs hne hp0 hp1) ?_
  have hcn : pct_c S p < S.length := pct_c_lt_len hne hp0 hp1
  have hlen : 0 < S.length := List.length_pos.mpr hne
  exact_mod_cast sorted_getD_mono hs (by omega) (by omega)

theorem percentile_mono {S : List Nat} (hs : List.Sorted (· ≤ ·) S) (hne : S ≠ [])
    {p q : ℚ} (hp0 : 0 ≤ p) (hpq : p ≤ q) (hq1 : q ≤ 100) :
    percentile S p ≤ percentile S q := by
  have hq0 : 0 ≤ q := le_trans hp0 hpq
  have hp1 : p ≤ 100 := le_trans hpq hq1
  have hkk : pct_k S p ≤ pct_k S q := by
    have hlen : 0 < S.length := List.length_pos.mpr hne
    have h1 : (1 : ℚ) ≤ (S.length : ℚ) := by exact_mod_cast hlen
    have : p / 100 ≤ q / 100 := by linarith
    exact mul_le_mul_of_nonneg_left this (by linarith)
  have hff : pct_f S p ≤ pct_f S q := by
    unfold pct_f
    exact Int.toNat_le_toNat (by rw [rat_floor_eq, rat_floor_eq]; exact Int.floor_le_floor hkk)
  rcases lt_or_eq_of_le hff with hlt | heq
  · -- the lower index strictly increases: chain through the list entries
    have h1 : percentile S p ≤ (S.getD (pct_c S p) 0 : ℚ) :=
      percentile_upper hs hne hp0 hp1
    have h2 : (S.getD (pct_f S q) 0 : ℚ) ≤ percentile S q :=
      percentile_lower hs hne hq0 hq1
    have hcf : pct_c S p ≤ pct_f S q := le_trans (pct_c_le_f_add_one S p) (by omega)
    have h3 : S.getD (pct_c S p) 0 ≤ S.getD (pct_f S q) 0 :=
      sorted_getD_mono hs hcf (pct_f_lt_len hne hq0 hq1)
    have h3q : (S.getD (pct_c S p) 0 : ℚ) ≤ (S.getD (pct_f S q) 0 : ℚ) := by exact_mod_cast h3
    linarith
  · -- equal lower index: same interpolation cell
    have hcc : pct_c S p = pct_c S q := by
      unfold pct_c
      rw [heq]
    rw [percentile_eq_body hne, percentile_eq_body hne, heq, hcc]
    split
    · exact le_refl _
    · next h =>
      have hcn : pct_c S q < S.length := pct_c_lt_len hne hq0 hq1
      have hfc : S.getD (pct_f S q) 0 ≤ S.getD (pct_c S q) 0 :=
        sorted_getD_mono hs (pct_f_le_c S q) hcn
      have hfcq : (S.getD (pct_f S q) 0 : ℚ) ≤ (S.getD (pct_c S q) 0 : ℚ) := by
        exact_mod_cast hfc
      nlinarith [mul_nonneg (sub_nonneg.mpr hkk) (sub_nonneg.mpr hfcq)]

theorem pyInt_eq_floor {q : ℚ} (h : 0 ≤ q) : pyInt q = ⌊q⌋ := by
  unfold pyInt
  rw [if_pos h, rat_floor_eq]

/-- Invariant of a live stage aggregator: every reservoir entry lies between
the running minimum and maximum, and the minimum is still `inf` only while the
reservoir is empty. -/
def AggInv (agg : StageAggregator) : Prop :=
  (∀ x ∈ agg.duration_reservoir, ∃ m, agg.duration_min = some m ∧ m ≤ x) ∧
  (∀ x ∈ agg.duration_reservoir, x ≤ agg.duration_max) ∧
  (agg.duration_reservoir = [] → agg.duration_min = none)

theorem aggInv_init (sid : Int) (name : String) (ntasks : Int) (ts : Option Int) :
    AggInv (StageAggregator.init sid name ntasks ts) := by
  refine ⟨?_, ?_, ?_⟩ <;> simp [StageAggregator.init]

theorem aggInv_completion (agg : StageAggregator) (ts : Option Int) (nfailed : Int)
    (h : AggInv agg) :
    AggInv { agg with completion_time_ms := ts, num_failed_tasks := nfailed } := h

theorem aggInv_add_task (rng : Nat → Nat) (draws : Nat) (agg : StageAggregator)
    (info : TaskInfo) (tm : TaskMetricsData) (h : AggInv agg) :
    AggInv (add_task rng draws agg info tm).1 := by
  obtain ⟨h1, h2, h3⟩ := h
  have hmem : ∀ x ∈ (add_task rng draws agg info tm).1.duration_reservoir,
      x ∈ agg.duration_reservoir ∨ x = task_duration info := by
    intro x hx
    simp only [add_task] at hx
    by_cases hlen : agg.duration_reservoir.length < RESERVOIR_SIZE
    · rw [if_pos hlen] at hx
      rcases List.mem_append.mp hx with h' | h'
      · exact Or.inl h'
      · exact Or.inr (List.mem_singleton.mp h')
    · rw [if_neg hlen] at hx
      split at hx
      · rcases List.mem_or_eq_of_mem_set hx with h' | h'
        · exact Or.inl h'
        · exact Or.inr h'
      · exact Or.inl hx
  have hlenpos : 0 < (add_task rng draws agg info tm).1.duration_reservoir.length := by
    simp only [add_task]
    by_cases hlen : agg.duration_reservoir.length < RESERVOIR_SIZE
    · rw [if_pos hlen]
      simp
    · rw [if_neg hlen]
      have hpos : 0 < agg.duration_reservoir.length := by
        have : RESERVOIR_SIZE ≤ agg.duration_reservoir.length := le_of_not_lt hlen
        unfold RESERVOIR_SIZE at this
        omega
      dsimp only
      split
      · simpa using hpos
      · exact hpos
  have hne : (add_task rng draws agg info tm).1.duration_reservoir ≠ [] :=
    List.ne_nil_of_length_pos hlenpos
  have hminmax : (add_task rng draws agg info tm).1.duration_max
      = max agg.duration_max (task_duration info) := rfl
  refine ⟨?_, ?_, fun hx => absurd hx hne⟩
  · intro x hx
    rcases hmem x hx with hold | rfl
    · obtain ⟨m, hm, hle⟩ := h1 x hold
      refine ⟨min m (task_duration info), ?_, le_trans (min_le_left _ _) hle⟩
      simp only [add_task, hm]
    · cases hmin : agg.duration_min with
      | none => exact ⟨task_duration info, by simp only [add_task, hmin], le_refl _⟩
      | some m =>
          exact ⟨min m (task_duration info), by simp only [add_task, hmin], min_le_right _ _⟩
  · intro x hx
    rw [hminmax]
    rcases hmem x hx with hold | rfl
    · exact le_trans (h2 x hold) (le_max_left _ _)
    · exact le_max_right _ _

/-- The min/percentile/max chain for the snapshot of an aggregator that
satisfies the invariant. -/
theorem to_stage_metrics_chain (agg : StageAggregator) (h : AggInv agg) :
    (to_stage_metrics agg).task_duration_min_ms ≤ (to_stage_metrics agg).task_duration_median_ms ∧
    (to_stage_metrics agg).task_duration_median_ms ≤ (to_stage_metrics agg).task_duration_p75_ms ∧
    (to_stage_metrics agg).task_duration_p75_ms ≤ (to_stage_metrics agg).task_duration_p90_ms ∧
    (to_stage_metrics agg).task_duration_p90_ms ≤ (to_stage_metrics agg).task_duration_p99_ms ∧
    (to_stage_metrics agg).task_duration_p99_ms ≤ (to_stage_metrics agg).task_duration_max_ms := by
  obtain ⟨h1, h2, h3⟩ := h
  by_cases hres : agg.duration_reservoir = []
  · have hmin := h3 hres
    simp [to_stage_metrics, hres, hmin]
  · have hie : agg.duration_reservoir.isEmpty = false := by
      cases hl : agg.duration_reservoir
      · exact absurd hl hres
      · rfl
    have hsorted : List.Sorted (· ≤ ·) (List.insertionSort (· ≤ ·) agg.duration_reservoir) :=
      List.sorted_insertionSort _ _
    have hperm : List.Perm (List.insertionSort (· ≤ ·) agg.duration_reservoir)
        agg.duration_reservoir :=
      List.perm_insertionSort _ _
    have hTne : List.insertionSort (· ≤ ·) agg.duration_reservoir ≠ [] := by
      intro hnil
      exact hres (List.Perm.eq_nil (List.Perm.symm (hnil ▸ hperm)))
    have hTlen : 0 < (List.insertionSort (· ≤ ·) agg.duration_reservoir).length :=
      List.length_pos.mpr hTne
    have hhead_mem : (List.insertionSort (· ≤ ·) agg.duration_reservoir).getD 0 0
        ∈ agg.duration_reservoir := hperm.mem_iff.mp (getD_mem hTlen)
    have hlast_mem :
        (List.insertionSort (· ≤ ·) agg.duration_reservoir).getD
          ((List.insertionSort (· ≤ ·) agg.duration_reservoir).length - 1) 0
        ∈ agg.duration_reservoir := hperm.mem_iff.mp (getD_mem (by omega))
    obtain ⟨m, hm_eq, hm_le⟩ := h1 _ hhead_mem
    have hlast_max := h2 _ hlast_mem
    have hP :=
      fun (p : ℚ) (hp0 : 0 ≤ p) (hp1 : p ≤ 100) => percentile_ge_head hsorted hTne hp0 hp1
    have hnn : ∀ (p : ℚ), 0 ≤ p → p ≤ 100 →
        0 ≤ percentile (List.insertionSort (· ≤ ·) agg.duration_reservoir) p := by
      intro p hp0 hp1
      refine le_trans ?_ (hP p hp0 hp1)
      exact_mod_cast Nat.zero_le _
    have hmono := fun (p q : ℚ) (hp0 : 0 ≤ p) (hpq : p ≤ q) (hq1 : q ≤ 100) =>
      percentile_mono hsorted hTne hp0 hpq hq1
    simp only [to_stage_metrics, hie, Bool.false_eq_true, if_false, hm_eq]
    have e50 := pyInt_eq_floor (hnn 50 (by norm_num) (by norm_num))
    have e75 := pyInt_eq_floor (hnn 75 (by norm_num) (by norm_num))
    have e90 := pyInt_eq_floor (hnn 90 (by norm_num) (by norm_num))
    have e99 := pyInt_eq_floor (hnn 99 (by norm_num) (by norm_num))
    rw [e50, e75, e90, e99]
    refine ⟨?_, ?_, ?_, ?_, ?_⟩
    · refine Int.le_floor.mpr ?_
      refine le_trans ?_ (hP 50 (by norm_num) (by norm_num))
      exact_mod_cast hm_le
    · exact Int.floor_le_floor (hmono 50 75 (by norm_num) (by norm_num) (by norm_num))
    · exact Int.floor_le_floor (hmono 75 90 (by norm_num) (by norm_num) (by norm_num))
    · exact Int.floor_le_floor (hmono 90 99 (by norm_num) (by norm_num) (by norm_num))
    · have hle := percentile_le_last hsorted hTne (p := 99) (by norm_num) (by norm_num)
      have h2' : percentile (List.insertionSort (· ≤ ·) agg.duration_reservoir) 99
          ≤ ((agg.duration_max : ℚ)) := by
        refine le_trans hle ?_
        exact_mod_cast hlast_max
      calc ⌊percentile (List.insertionSort (· ≤ ·) agg.duration_reservoir) 99⌋
          ≤ ⌊((agg.duration_max : ℕ) : ℚ)⌋ := Int.floor_le_floor h2'
        _ = (agg.duration_max : ℤ) := Int.floor_natCast _

theorem dict_set_mem :
    ∀ {m : List (Int × StageAggregator)} {k : Int} {v : StageAggregator}
      {pair : Int × StageAggregator},
      pair ∈ dict_set m k v → pair ∈ m ∨ pair = (k, v)
  | [], _, _, _, h => Or.inr (by simpa [dict_set] using h)
  | (k', v') :: rest, k, v, pair, h => by
      unfold dict_set at h
      split at h
      · rcases List.mem_cons.mp h with h1 | h1
        · exact Or.inr h1
        · exact Or.inl (List.mem_cons_of_mem _ h1)
      · rcases List.mem_cons.mp h with h1 | h1
        · exact Or.inl (h1 ▸ List.mem_cons_self _ _)
        · rcases dict_set_mem h1 with h2 | h2
          · exact Or.inl (List.mem_cons_of_mem _ h2)
          · exact Or.inr h2

theorem dict_get_mem :
    ∀ {m : List (Int × StageAggregator)} {k : Int} {v : StageAggregator},
      dict_get m k = some v → (k, v) ∈ m
  | [], _, _, h => by simp [dict_get] at h
  | (k', v') :: rest, k, v, h => by
      unfold dict_get at h
      split at h
      · next heq =>
        obtain rfl := heq
        obtain rfl : v' = v := by simpa using h
        exact List.mem_cons_self _ _
      · exact List.mem_cons_of_mem _ (dict_get_mem h)

theorem step_preserves_inv (rng : Nat → Nat) (ev : SparkEvent) (st : ParseState)
    (h : ∀ pair ∈ st.stages, AggInv pair.2) :
    ∀ pair ∈ (step rng st ev).stages, AggInv pair.2 := by
  cases ev with
  | applicationStart a b c => exact h
  | applicationEnd ts => exact h
  | stageSubmitted sid name nt ts =>
      intro pair hp
      simp only [step] at hp
      rcases dict_set_mem hp with h1 | h1
      · exact h pair h1
      · rw [h1]
        exact aggInv_init sid name nt ts
  | stageCompleted sid nfailed ts =>
      intro pair hp
      simp only [step] at hp
      split at hp
      · next agg hg =>
        rcases dict_set_mem hp with h1 | h1
        · exact h pair h1
        · rw [h1]
          exact aggInv_completion agg ts nfailed (h (sid, agg) (dict_get_mem hg))
      · exact h pair hp
  | taskEnd sid info tm =>
      intro pair hp
      simp only [step] at hp
      split at hp
      · next agg hg =>
        rcases dict_set_mem hp with h1 | h1
        · exact h pair h1
        · rw [h1]
          exact aggInv_add_task rng _ agg info tm (h (sid, agg) (dict_get_mem hg))
      · exact h pair hp
  | executorAdded eid => exact h
  | other => exact h

theorem foldl_preserves_inv (rng : Nat → Nat) :
    ∀ (events : List SparkEvent) (st : ParseState),
      (∀ pair ∈ st.stages, AggInv pair.2) →
      ∀ pair ∈ (events.foldl (step rng) st).stages, AggInv pair.2
  | [], _, h => h
  | ev :: rest, st, h =>
      foldl_preserves_inv rng rest (step rng st ev) (step_preserves_inv rng ev st h)

/-- Every stage snapshot in the parse result is the freeze of an aggregator
that satisfies the invariant. -/
theorem result_stage_of_inv (events : List SparkEvent) (rng : Nat → Nat)
    {s : StageMetrics} (hs : s ∈ (extract_metrics_streaming events rng).stages) :
    ∃ agg : StageAggregator, AggInv agg ∧ s = to_stage_metrics agg := by
  have hinv := foldl_preserves_inv rng events initial_state
    (by simp [initial_state])
  simp only [extract_metrics_streaming] at hs
  have hs' := (List.Perm.mem_iff (List.perm_insertionSort _ _)).mp hs
  obtain ⟨pair, hpair, hfix⟩ := List.mem_map.mp hs'
  exact ⟨pair.2, hinv pair hpair, hfix.symm⟩

theorem dict_get_dict_set (m : List (Int × StageAggregator)) (k : Int) (v : StageAggregator) :
    dict_get (dict_set m k v) k = some v := by
  induction m with
  | nil => simp [dict_set, dict_get]
  | cons hd tl ih =>
      obtain ⟨k', v'⟩ := hd
      unfold dict_set
      split
      · next heq => simp [dict_get, heq]
      · next hne =>
        unfold dict_get
        rw [if_neg hne]
        exact ih

theorem dict_set_dict_set (m : List (Int × StageAggregator)) (k : Int)
    (a b : StageAggregator) : dict_set (dict_set m k a) k b = dict_set m k b := by
  induction m with
  | nil => simp [dict_set]
  | cons hd tl ih =>
      obtain ⟨k', v'⟩ := hd
      by_cases heq : k' = k
      · subst heq
        simp [dict_set]
      · simp only [dict_set, if_neg heq]
        rw [ih]

/-! The fixed draw stream used by concrete examples. -/

/-- A concrete RNG stream (every draw is 0). -/
def rng0 : Nat → Nat := fun _ => 0

instance : DecidableEq (Except Unit SparkMetrics) := fun a b =>
  match a, b with
  | .ok x, .ok y =>
      if h : x = y then isTrue (by rw [h])
      else isFalse (fun hc => h (by injection hc))
  | .ok _, .error _ => isFalse (by intro hc; cases hc)
  | .error _, .ok _ => isFalse (by intro hc; cases hc)
  | .error x, .error y => isTrue (by cases x; cases y; rfl)

/-- Event log with a stage whose completion timestamp (50) precedes its
submission timestamp (100). -/
def c1_log : List SparkEvent :=
  [ .applicationStart "app-1" "App" (some 1000),
    .stageSubmitted 0 "s0" 1 (some 100),
    .stageCompleted 0 0 (some 50),
    .applicationEnd (some 2000) ]

/-- Event log whose application end timestamp (1000) precedes its start
timestamp (2000). -/
def c1_log_app : List SparkEvent :=
  [ .applicationStart "app-1" "App" (some 2000),
    .applicationEnd (some 1000) ]

/-- C1: the claim says a stage-timestamp ordering inversion (completion before
submission) is clamped or dropped and parsing never fails.  In the code,
`to_stage_metrics` computes `duration_ms = completion - submission` with no
clamp, and the pydantic `ge=0` bound on `StageMetrics.duration_ms` raises
`ValidationError`, aborting the parse; likewise `total_duration_ms` for an
application end before start.  This theorem evaluates the code at both
failing inputs: the stage duration is computed as `-50` and the parse errors,
and the end-before-start log errors as well. -/
theorem c1_ordering_inversion_raises :
    (extract_metrics_streaming c1_log rng0).stages.map (fun s => s.duration_ms) = [-50] ∧
    parse_eventlog c1_log rng0 = .error () ∧
    (extract_metrics_streaming c1_log_app rng0).total_duration_ms = -1000 ∧
    parse_eventlog c1_log_app rng0 = .error () := by
  refine ⟨by decide, by decide, by decide, by decide⟩

/-- C2: parsing is a pure function of the decoded event list and the RNG draw
stream (the process-global `random`, which is seeded via `random.seed`): two
runs over the same file whose samplers produce the same draw sequence yield
identical `SparkMetrics` — every field, including the per-stage percentile
fields — and hence identical detector findings. -/
theorem c2_deterministic_replay (events : List SparkEvent) (rng₁ rng₂ : Nat → Nat)
    (hseed : ∀ i, rng₁ i = rng₂ i) (thresholds : ThresholdConfig) :
    parse_eventlog events rng₁ = parse_eventlog events rng₂ ∧
    extract_metrics_streaming events rng₁ = extract_metrics_streaming events rng₂ ∧
    io_detect (extract_metrics_streaming events rng₁)
      = io_detect (extract_metrics_streaming events rng₂) ∧
    spill_detect thresholds (extract_metrics_streaming events rng₁)
      = spill_detect thresholds (extract_metrics_streaming events rng₂) ∧
    shuffle_detect thresholds (extract_metrics_streaming events rng₁)
      = shuffle_detect thresholds (extract_metrics_streaming events rng₂) := by
  have hr : rng₁ = rng₂ := funext hseed
  rw [hr]
  exact ⟨rfl, rfl, rfl, rfl, rfl⟩

/-- A small log for replay witnesses. -/
def c2_log : List SparkEvent :=
  [ .applicationStart "app-2" "App" (some 0),
    .stageSubmitted 0 "s0" 1 (some 10),
    .taskEnd 0 ⟨"1", 10, 25, false⟩ ⟨1, 2, 3, 4, 5, 6, 7, 8, 9⟩,
    .stageCompleted 0 0 (some 30),
    .applicationEnd (some 40) ]

theorem c2_deterministic_replay_witness :
    parse_eventlog c2_log rng0 = parse_eventlog c2_log rng0 :=
  (c2_deterministic_replay c2_log rng0 rng0 (fun _ => rfl) default_thresholds).1

/-- C4: in every parse result, every stage satisfies
`task_duration_min ≤ median ≤ p75 ≤ p90 ≤ p99 ≤ task_duration_max`.  The
minimum and maximum are exact over all tasks while the percentiles come from
the reservoir subsample, whose entries always lie between them. -/
theorem c4_stage_duration_stats_ordered (events : List SparkEvent) (rng : Nat → Nat)
    (s : StageMetrics) (hs : s ∈ (extract_metrics_streaming events rng).stages) :
    s.task_duration_min_ms ≤ s.task_duration_median_ms ∧
    s.task_duration_median_ms ≤ s.task_duration_p75_ms ∧
    s.task_duration_p75_ms ≤ s.task_duration_p90_ms ∧
    s.task_duration_p90_ms ≤ s.task_duration_p99_ms ∧
    s.task_duration_p99_ms ≤ s.task_duration_max_ms := by
  obtain ⟨agg, hinv, rfl⟩ := result_stage_of_inv events rng hs
  exact to_stage_metrics_chain agg hinv

/-- Log and concrete stage snapshot for the C4 witness. -/
def c4_log : List SparkEvent :=
  [ .applicationStart "app-4" "App" (some 0),
    .stageSubmitted 0 "s0" 4 (some 10),
    .stageCompleted 0 0 (some 20),
    .applicationEnd (some 40) ]

/-- The stage snapshot that `c4_log` produces. -/
def c4_stage : StageMetrics :=
  { stage_id := 0, stage_name := "s0", num_tasks := 0,
    submission_time_ms := some 10, completion_time_ms := some 20, duration_ms := 10,
    task_duration_min_ms := 0, task_duration_max_ms := 0, task_duration_median_ms := 0,
    task_duration_p75_ms := 0, task_duration_p90_ms := 0, task_duration_p99_ms := 0,
    input_bytes := 0, input_records := 0, output_bytes := 0, output_records := 0,
    shuffle_read_bytes := 0, shuffle_write_bytes := 0, memory_bytes_spilled := 0,
    disk_bytes_spilled := 0, num_failed_tasks := 0 }

theorem c4_stage_duration_stats_ordered_witness :
    c4_stage.task_duration_min_ms ≤ c4_stage.task_duration_median_ms ∧
    c4_stage.task_duration_median_ms ≤ c4_stage.task_duration_p75_ms ∧
    c4_stage.task_duration_p75_ms ≤ c4_stage.task_duration_p90_ms ∧
    c4_stage.task_duration_p90_ms ≤ c4_stage.task_duration_p99_ms ∧
    c4_stage.task_duration_p99_ms ≤ c4_stage.task_duration_max_ms :=
  c4_stage_duration_stats_ordered c4_log rng0 c4_stage (by decide)

/-- C8: the application-level aggregates of every parse result are the sums of
the corresponding per-stage fields over the stage list of the result. -/
theorem c8_totals_are_stage_sums (events : List SparkEvent) (rng : Nat → Nat) :
    (extract_metrics_streaming events rng).num_tasks
      = ((extract_metrics_streaming events rng).stages.map (fun s => s.num_tasks)).sum ∧
    (extract_metrics_streaming events rng).total_input_bytes
      = ((extract_metrics_streaming events rng).stages.map (fun s => s.input_bytes)).sum ∧
    (extract_metrics_streaming events rng).total_output_bytes
      = ((extract_metrics_streaming events rng).stages.map (fun s => s.output_bytes)).sum ∧
    (extract_metrics_streaming events rng).total_shuffle_read_bytes
      = ((extract_metrics_streaming events rng).stages.map (fun s => s.shuffle_read_bytes)).sum ∧
    (extract_metrics_streaming events rng).total_shuffle_write_bytes
      = ((extract_metrics_streaming events rng).stages.map (fun s => s.shuffle_write_bytes)).sum ∧
    (extract_metrics_streaming events rng).total_disk_bytes_spilled
      = ((extract_metrics_streaming events rng).stages.map (fun s => s.disk_bytes_spilled)).sum :=
  ⟨rfl, rfl, rfl, rfl, rfl, rfl⟩

/-- C9: the duration recorded by `add_task` is `max(0, Finish - Launch)`:
zero when the finish timestamp does not exceed the launch timestamp and the
difference otherwise; it feeds the running minimum, maximum and sum, and the
reservoir (appended while the reservoir is below capacity, written at the
drawn slot `j < R` once the reservoir is full). -/
theorem c9_task_duration_max_zero (rng : Nat → Nat) (draws : Nat) (agg : StageAggregator)
    (info : TaskInfo) (tm : TaskMetricsData) :
    (task_duration info : Int) = max 0 (info.finish_time - info.launch_time) ∧
    (info.finish_time ≤ info.launch_time → task_duration info = 0) ∧
    (info.launch_time < info.finish_time →
      (task_duration info : Int) = info.finish_time - info.launch_time) ∧
    (add_task rng draws agg info tm).1.duration_sum
      = agg.duration_sum + task_duration info ∧
    (add_task rng draws agg info tm).1.duration_max
      = max agg.duration_max (task_duration info) ∧
    (add_task rng draws agg info tm).1.duration_min
      = (match agg.duration_min with
          | none => some (task_duration info)
          | some m => some (min m (task_duration info))) ∧
    (agg.duration_reservoir.length < RESERVOIR_SIZE →
      (add_task rng draws agg info tm).1.duration_reservoir
        = agg.duration_reservoir ++ [task_duration info]) ∧
    (¬ agg.duration_reservoir.length < RESERVOIR_SIZE →
      rng draws % (agg.reservoir_count + 1) < RESERVOIR_SIZE →
      (add_task rng draws agg info tm).1.duration_reservoir
        = agg.duration_reservoir.set (rng draws % (agg.reservoir_count + 1))
            (task_duration info)) := by
  refine ⟨?_, ?_, ?_, rfl, rfl, rfl, ?_, ?_⟩
  · unfold task_duration
    split <;> omega
  · intro h
    unfold task_duration
    rw [if_neg (by omega)]
  · intro h
    unfold task_duration
    rw [if_pos h]
    omega
  · intro h
    simp only [add_task]
    rw [if_pos h]
  · intro h1 h2
    simp only [add_task]
    rw [if_neg h1]
    dsimp only
    rw [if_pos h2]

theorem c9_task_duration_max_zero_witness :
    task_duration ⟨"1", 100, 60, false⟩ = 0 ∧
    (add_task rng0 0 (StageAggregator.init 0 "s" 1 (some 5)) ⟨"1", 100, 60, false⟩
        ⟨0, 0, 0, 0, 0, 0, 0, 0, 0⟩).1.duration_reservoir = [0] :=
  ⟨(c9_task_duration_max_zero rng0 0 (StageAggregator.init 0 "s" 1 (some 5))
      ⟨"1", 100, 60, false⟩ ⟨0, 0, 0, 0, 0, 0, 0, 0, 0⟩).2.1 (by decide),
   by
    have h := (c9_task_duration_max_zero rng0 0 (StageAggregator.init 0 "s" 1 (some 5))
      ⟨"1", 100, 60, false⟩ ⟨0, 0, 0, 0, 0, 0, 0, 0, 0⟩).2.2.2.2.2.2.1 (by decide)
    simpa using h⟩

/-- C10: a second `SparkListenerStageSubmitted` for the same stage id replaces
the aggregator wholesale with a fresh one — every accumulated statistic is
discarded — and everything the parse computes afterwards is independent of
whatever the discarded aggregator held. -/
theorem c10_resubmission_resets (rng : Nat → Nat) (st : ParseState) (sid : Int)
    (name : String) (ntasks : Int) (ts : Option Int) (A : StageAggregator)
    (rest : List SparkEvent) :
    dict_get ((step rng st (.stageSubmitted sid name ntasks ts)).stages) sid
      = some (StageAggregator.init sid name ntasks ts) ∧
    List.foldl (step rng)
        (step rng { st with stages := dict_set st.stages sid A }
          (.stageSubmitted sid name ntasks ts)) rest
      = List.foldl (step rng) (step rng st (.stageSubmitted sid name ntasks ts)) rest := by
  constructor
  · exact dict_get_dict_set st.stages sid (StageAggregator.init sid name ntasks ts)
  · have hstate : step rng { st with stages := dict_set st.stages sid A }
        (.stageSubmitted sid name ntasks ts)
        = step rng st (.stageSubmitted sid name ntasks ts) := by
      simp only [step]
      rw [dict_set_dict_set]
    rw [hstate]

/-! String disambiguation lemmas for finding identifiers. -/

theorem spill_ids_ne (x : String) : "spill-stage-" ++ x ≠ "spill-total" := by
  intro h
  have h2 := congrArg String.length h
  rw [String.length_append] at h2
  have e1 : "spill-stage-".length = 12 := rfl
  have e2 : "spill-total".length = 11 := rfl
  rw [e1, e2] at h2
  omega

theorem shuffle_ids_ne (x : String) :
    "shuffle-explosion-stage-" ++ x ≠ "shuffle-explosion-global" := by
  intro h
  have h2 := congrArg String.length h
  rw [String.length_append] at h2
  have e1 : "shuffle-explosion-stage-".length = 24 := rfl
  have e2 : "shuffle-explosion-global".length = 24 := rfl
  rw [e1, e2] at h2
  have hx : x.length = 0 := by omega
  have hxe : x = "" := by
    cases x with
    | mk data =>
      cases data with
      | nil => rfl
      | cons hd tl => simp [String.length] at hx
  subst hxe
  exact absurd h (by decide)

theorem io_ids_ne (x : String) : "io-shuffle-stage-" ++ x ≠ "io-input-stage-" ++ x := by
  intro h
  have h2 := congrArg String.length h
  rw [String.length_append, String.length_append] at h2
  have e1 : "io-shuffle-stage-".length = 17 := rfl
  have e2 : "io-input-stage-".length = 15 := rfl
  rw [e1, e2] at h2
  omega

/-- Every per-stage spill finding carries the per-stage identifier. -/
theorem spill_stage_findings_id (t : ThresholdConfig) (s : StageMetrics) :
    ∀ f ∈ spill_stage_findings t s, f.id = "spill-stage-" ++ toString s.stage_id := by
  intro f hf
  unfold spill_stage_findings at hf
  dsimp only at hf
  split at hf
  · rw [List.mem_singleton.mp hf]
  · cases hf

/-- Every per-stage shuffle finding carries the per-stage identifier. -/
theorem shuffle_stage_findings_id (t : ThresholdConfig) (s : StageMetrics) :
    ∀ f ∈ shuffle_stage_findings t s, f.id = "shuffle-explosion-stage-" ++ toString s.stage_id := by
  intro f hf
  unfold shuffle_stage_findings at hf
  dsimp only at hf
  split at hf
  · cases hf
  · split at hf
    · split at hf
      · rw [List.mem_singleton.mp hf]
      · cases hf
    · cases hf

/-- C6: the spill detector.  Per stage with `s = disk_bytes_spilled / MiB ≥
min_spill_mb`, a single `spill-stage-{id}` finding is emitted whose severity is
`critical` exactly when `s > 10·min_spill_mb`, `warning` exactly when
`3·min_spill_mb < s ≤ 10·min_spill_mb`, and `info` otherwise; and the
application-wide `spill-total` finding is emitted exactly when
`total_disk_spilled / MiB ≥ 5·min_spill_mb`, with severity `warning` and
`stage_ids` exactly the ids of the stages with nonzero disk spill. -/
theorem c6_spill_detector_severity (t : ThresholdConfig) (m : SparkMetrics) :
    (∀ s : StageMetrics,
      (s.disk_bytes_spilled : ℚ) / (MB : ℚ) ≥ (t.minSpillMb : ℚ) →
      ∃ sev : Severity,
        spill_stage_findings t s
          = [{ id := "spill-stage-" ++ toString s.stage_id, detector := "spill",
               severity := sev, stage_ids := [s.stage_id] }] ∧
        (sev = .critical ↔ (s.disk_bytes_spilled : ℚ) / (MB : ℚ) > (t.minSpillMb : ℚ) * 10) ∧
        (sev = .warning ↔ ((t.minSpillMb : ℚ) * 3 < (s.disk_bytes_spilled : ℚ) / (MB : ℚ) ∧
            (s.disk_bytes_spilled : ℚ) / (MB : ℚ) ≤ (t.minSpillMb : ℚ) * 10)) ∧
        (sev = .info ↔ (s.disk_bytes_spilled : ℚ) / (MB : ℚ) ≤ (t.minSpillMb : ℚ) * 3)) ∧
    ((∃ f ∈ spill_detect t m, f.id = "spill-total") ↔
      (m.total_disk_bytes_spilled : ℚ) / (MB : ℚ) ≥ (t.minSpillMb : ℚ) * 5) ∧
    (∀ f ∈ spill_detect t m, f.id = "spill-total" →
      f.severity = .warning ∧
      f.stage_ids
        = (m.stages.filter (fun s => s.disk_bytes_spilled > 0)).map (fun s => s.stage_id)) := by
  refine ⟨?_, ?_, ?_⟩
  · intro s hq
    by_cases h10 : (s.disk_bytes_spilled : ℚ) / (MB : ℚ) > (t.minSpillMb : ℚ) * 10
    · refine ⟨.critical, ?_, ?_, ?_, ?_⟩
      · unfold spill_stage_findings
        rw [if_pos hq, if_pos h10]
      · exact iff_of_true rfl h10
      · refine iff_of_false (by decide) ?_
        rintro ⟨-, hle⟩
        exact absurd h10 (not_lt.mpr hle)
      · refine iff_of_false (by decide) ?_
        intro hle
        have hmin : (t.minSpillMb : ℚ) ≤ (s.disk_bytes_spilled : ℚ) / (MB : ℚ) := hq
        linarith
    · by_cases h3 : (s.disk_bytes_spilled : ℚ) / (MB : ℚ) > (t.minSpillMb : ℚ) * 3
      · refine ⟨.warning, ?_, ?_, ?_, ?_⟩
        · unfold spill_stage_findings
          rw [if_pos hq, if_neg h10, if_pos h3]
        · exact iff_of_false (by decide) h10
        · exact iff_of_true rfl ⟨h3, not_lt.mp h10⟩
        · exact iff_of_false (by decide) (not_le.mpr h3)
      · refine ⟨.info, ?_, ?_, ?_, ?_⟩
        · unfold spill_stage_findings
          rw [if_pos hq, if_neg h10, if_neg h3]
        · exact iff_of_false (by decide) h10
        · refine iff_of_false (by decide) ?_
          rintro ⟨hgt, -⟩
          exact h3 hgt
        · exact iff_of_true rfl (not_lt.mp h3)
  · constructor
    · rintro ⟨f, hf, hid⟩
      unfold spill_detect at hf
      dsimp only at hf
      rcases List.mem_append.mp hf with hl | hr
      · obtain ⟨l, hl', hfl⟩ := List.mem_flatten.mp hl
        obtain ⟨s, -, rfl⟩ := List.mem_map.mp hl'
        exact absurd ((spill_stage_findings_id t s f hfl).symm.trans hid) (spill_ids_ne _)
      · split at hr
        · next hcond => exact hcond
        · cases hr
    · intro hcond
      refine ⟨⟨"spill-total", "spill", .warning,
        (m.stages.filter (fun s => s.disk_bytes_spilled > 0)).map (fun s => s.stage_id)⟩, ?_, rfl⟩
      unfold spill_detect
      refine List.mem_append.mpr (Or.inr ?_)
      rw [if_pos hcond]
      exact List.mem_singleton.mpr rfl
  · intro f hf hid
    unfold spill_detect at hf
    dsimp only at hf
    rcases List.mem_append.mp hf with hl | hr
    · obtain ⟨l, hl', hfl⟩ := List.mem_flatten.mp hl
      obtain ⟨s, -, rfl⟩ := List.mem_map.mp hl'
      exact absurd ((spill_stage_findings_id t s f hfl).symm.trans hid) (spill_ids_ne _)
    · split at hr
      · rw [List.mem_singleton.mp hr]
        exact ⟨rfl, rfl⟩
      · cases hr

/-- C7: the shuffle detector emits the application-wide
`shuffle-explosion-global` finding exactly when total input bytes are positive
and `(total_shuffle_read + total_shuffle_write) / total_input` is at least
twice `shuffle_explosion_ratio`; that finding always has severity `warning`
and an empty `stage_ids` list. -/
theorem c7_shuffle_global (t : ThresholdConfig) (m : SparkMetrics) :
    ((∃ f ∈ shuffle_detect t m, f.id = "shuffle-explosion-global") ↔
      (m.total_input_bytes > 0 ∧
        ((m.total_shuffle_read_bytes + m.total_shuffle_write_bytes : Int) : ℚ)
            / (m.total_input_bytes : ℚ)
          ≥ t.shuffleExplosionThreshold * 2)) ∧
    (∀ f ∈ shuffle_detect t m, f.id = "shuffle-explosion-global" →
      f.severity = .warning ∧ f.stage_ids = []) := by
  constructor
  · constructor
    · rintro ⟨f, hf, hid⟩
      unfold shuffle_detect at hf
      dsimp only at hf
      rcases List.mem_append.mp hf with hl | hr
      · obtain ⟨l, hl', hfl⟩ := List.mem_flatten.mp hl
        obtain ⟨s, -, rfl⟩ := List.mem_map.mp hl'
        exact absurd ((shuffle_stage_findings_id t s f hfl).symm.trans hid) (shuffle_ids_ne _)
      · split at hr
        · next hpos =>
          split at hr
          · next hrq => exact ⟨hpos, hrq⟩
          · cases hr
        · cases hr
    · rintro ⟨hpos, hrq⟩
      refine ⟨⟨"shuffle-explosion-global", "shuffle", .warning, []⟩, ?_, rfl⟩
      unfold shuffle_detect
      refine List.mem_append.mpr (Or.inr ?_)
      rw [if_pos hpos]
      dsimp only
      rw [if_pos hrq]
      exact List.mem_singleton.mpr rfl
  · intro f hf hid
    unfold shuffle_detect at hf
    dsimp only at hf
    rcases List.mem_append.mp hf with hl | hr
    · obtain ⟨l, hl', hfl⟩ := List.mem_flatten.mp hl
      obtain ⟨s, -, rfl⟩ := List.mem_map.mp hl'
      exact absurd ((shuffle_stage_findings_id t s f hfl).symm.trans hid) (shuffle_ids_ne _)
    · split at hr
      · split at hr
        · rw [List.mem_singleton.mp hr]
          exact ⟨rfl, rfl⟩
        · cases hr
      · cases hr

/-- A stage that spilled 500 MiB to disk (spec scenario 4). -/
def c6_stage : StageMetrics :=
  { stage_id := 0, stage_name := "s0", num_tasks := 10,
    submission_time_ms := some 0, completion_time_ms := some 100, duration_ms := 100,
    task_duration_min_ms := 0, task_duration_max_ms := 0, task_duration_median_ms := 0,
    task_duration_p75_ms := 0, task_duration_p90_ms := 0, task_duration_p99_ms := 0,
    input_bytes := 0, input_records := 0, output_bytes := 0, output_records := 0,
    shuffle_read_bytes := 0, shuffle_write_bytes := 0, memory_bytes_spilled := 0,
    disk_bytes_spilled := 524288000, num_failed_tasks := 0 }

/-- Metrics containing `c6_stage` as the only stage. -/
def c6_metrics : SparkMetrics :=
  { app_id := "a", app_name := "", start_time_ms := none, end_time_ms := none,
    total_duration_ms := 0, num_stages := 1, num_completed_stages := 1, num_failed_stages := 0,
    stages := [c6_stage], num_tasks := 10, num_completed_tasks := 10, num_failed_tasks := 0,
    num_executors := 1, executor_ids := ["1"], total_input_bytes := 0, total_output_bytes := 0,
    total_shuffle_read_bytes := 0, total_shuffle_write_bytes := 0,
    total_disk_bytes_spilled := 524288000 }

theorem c6_spill_detector_severity_witness :
    spill_stage_findings default_thresholds c6_stage
      = [{ id := "spill-stage-" ++ toString (0 : Int), detector := "spill",
           severity := Severity.warning, stage_ids := [0] }] ∧
    (∃ f ∈ spill_detect default_thresholds c6_metrics, f.id = "spill-total") := by
  have h := c6_spill_detector_severity default_thresholds c6_metrics
  obtain ⟨sev, heq, hcrit, hwarn, hinfo⟩ := h.1 c6_stage
    (by norm_num [c6_stage, default_thresholds, MB])
  have hsev : sev = Severity.warning := hwarn.mpr
    (by norm_num [c6_stage, default_thresholds, MB])
  rw [hsev] at heq
  exact ⟨heq, h.2.1.mpr (by norm_num [c6_metrics, default_thresholds, MB])⟩

/-- Metrics whose total shuffle is 20x the total input (no stages). -/
def c7_metrics : SparkMetrics :=
  { app_id := "a", app_name := "", start_time_ms := none, end_time_ms := none,
    total_duration_ms := 0, num_stages := 0, num_completed_stages := 0, num_failed_stages := 0,
    stages := [], num_tasks := 0, num_completed_tasks := 0, num_failed_tasks := 0,
    num_executors := 0, executor_ids := [], total_input_bytes := 1048576,
    total_output_bytes := 0, total_shuffle_read_bytes := 10485760,
    total_shuffle_write_bytes := 10485760, total_disk_bytes_spilled := 0 }

theorem c7_shuffle_global_witness :
    ∃ f ∈ shuffle_detect default_thresholds c7_metrics, f.id = "shuffle-explosion-global" :=
  (c7_shuffle_global default_thresholds c7_metrics).1.mpr
    ⟨by norm_num [c7_metrics], by norm_num [c7_metrics, default_thresholds]⟩

/-- A stage that satisfies both I/O rules at once: 200 MiB of shuffle read and
600 MiB of input for its single task, with a 40-second median task. -/
def c3_stage : StageMetrics :=
  { stage_id := 0, stage_name := "s0", num_tasks := 1,
    submission_time_ms := some 0, completion_time_ms := some 1000, duration_ms := 1000,
    task_duration_min_ms := 40000, task_duration_max_ms := 40000,
    task_duration_median_ms := 40000, task_duration_p75_ms := 40000,
    task_duration_p90_ms := 40000, task_duration_p99_ms := 40000,
    input_bytes := 629145600, input_records := 0, output_bytes := 0, output_records := 0,
    shuffle_read_bytes := 209715200, shuffle_write_bytes := 0, memory_bytes_spilled := 0,
    disk_bytes_spilled := 0, num_failed_tasks := 0 }

/-- Metrics containing `c3_stage` as the only stage. -/
def c3_metrics : SparkMetrics :=
  { app_id := "a", app_name := "", start_time_ms := none, end_time_ms := none,
    total_duration_ms := 0, num_stages := 1, num_completed_stages := 1, num_failed_stages := 0,
    stages := [c3_stage], num_tasks := 1, num_completed_tasks := 1, num_failed_tasks := 0,
    num_executors := 1, executor_ids := ["1"], total_input_bytes := 629145600,
    total_output_bytes := 0, total_shuffle_read_bytes := 209715200,
    total_shuffle_write_bytes := 0, total_disk_bytes_spilled := 0 }

/-- C3 counterexample: the claim says the I/O detector emits at most one
finding per stage, the input rule being an `else` of the shuffle rule.  In the
code the two rules are independent `if` statements, and on `c3_metrics` the
detector emits two findings for stage 0: the shuffle finding and the input
finding. -/
theorem c3_counterexample_two_findings :
    io_detect c3_metrics
      = [{ id := "io-shuffle-stage-" ++ toString (0 : Int), detector := "io",
           severity := Severity.warning, stage_ids := [0] },
         { id := "io-input-stage-" ++ toString (0 : Int), detector := "io",
           severity := Severity.info, stage_ids := [0] }] := by
  show ([io_stage_findings c3_stage]).flatten = _
  unfold io_stage_findings
  norm_num [c3_stage]

/-- C3 amended: the input rule is not an `else` branch of the shuffle rule;
the two rules fire independently.  For every stage, the `io-input-stage-{id}`
finding is emitted exactly when the stage has nonzero duration and its own
input conditions hold — regardless of whether the shuffle rule fired — and
the `io-shuffle-stage-{id}` finding exactly when the shuffle conditions hold,
so one stage can receive both findings. -/
theorem c3_amended_independent_rules (s : StageMetrics) :
    ((∃ f ∈ io_stage_findings s, f.id = "io-input-stage-" ++ toString s.stage_id) ↔
      (s.duration_ms ≠ 0 ∧ s.input_bytes > 0 ∧
        (if s.num_tasks > 0 then
            ((s.input_bytes : ℚ) / (s.num_tasks : ℚ)) / (1024 * 1024)
          else 0) > 500 ∧
        s.task_duration_median_ms > 30000)) ∧
    ((∃ f ∈ io_stage_findings s, f.id = "io-shuffle-stage-" ++ toString s.stage_id) ↔
      (s.duration_ms ≠ 0 ∧ s.shuffle_read_bytes > 0 ∧
        (if s.num_tasks > 0 then
            ((s.shuffle_read_bytes : ℚ) / (s.num_tasks : ℚ)) / (1024 * 1024)
          else 0) > 100 ∧
        s.task_duration_median_ms > 10000)) := by
  unfold io_stage_findings
  dsimp only
  set A : ℚ := (if s.num_tasks > 0 then
      ((s.shuffle_read_bytes : ℚ) / (s.num_tasks : ℚ)) / (1024 * 1024)
    else 0) with hA
  set B : ℚ := (if s.num_tasks > 0 then
      ((s.input_bytes : ℚ) / (s.num_tasks : ℚ)) / (1024 * 1024)
    else 0) with hB
  split
  · next hd =>
    constructor
    · exact iff_of_false (by simp) (fun h => h.1 hd)
    · exact iff_of_false (by simp) (fun h => h.1 hd)
  · next hd =>
    constructor
    · constructor
      · intro ⟨f, hf, hid⟩
        rcases List.mem_append.mp hf with hl | hr
        · exfalso
          split at hl
          · split at hl
            · rw [List.mem_singleton.mp hl] at hid
              exact io_ids_ne _ hid
            · cases hl
          · cases hl
        · split at hr
          · next hin =>
            split at hr
            · next hcond => exact ⟨hd, hin, hcond.1, hcond.2⟩
            · cases hr
          · cases hr
      · rintro ⟨-, hin, hsz, hmed⟩
        refine ⟨⟨"io-input-stage-" ++ toString s.stage_id, "io", .info, [s.stage_id]⟩,
          List.mem_append.mpr (Or.inr ?_), rfl⟩
        rw [if_pos hin, if_pos ⟨hsz, hmed⟩]
        exact List.mem_singleton.mpr rfl
    · constructor
      · intro ⟨f, hf, hid⟩
        rcases List.mem_append.mp hf with hl | hr
        · split at hl
          · next hsh =>
            split at hl
            · next hcond => exact ⟨hd, hsh, hcond.1, hcond.2⟩
            · cases hl
          · cases hl
        · exfalso
          split at hr
          · split at hr
            · rw [List.mem_singleton.mp hr] at hid
              exact io_ids_ne _ hid.symm
            · cases hr
          · cases hr
      · rintro ⟨-, hsh, hsz, hmed⟩
        refine ⟨⟨"io-shuffle-stage-" ++ toString s.stage_id, "io", .warning, [s.stage_id]⟩,
          List.mem_append.mpr (Or.inl ?_), rfl⟩
        rw [if_pos hsh, if_pos ⟨hsz, hmed⟩]
        exact List.mem_singleton.mpr rfl

theorem c3_amended_independent_rules_witness :
    ∃ f ∈ io_stage_findings c3_stage,
      f.id = "io-input-stage-" ++ toString c3_stage.stage_id :=
  (c3_amended_independent_rules c3_stage).1.mpr
    (by norm_num [c3_stage])

/-- Feeding a list of tasks to an aggregator, one `add_task` per task, the
draw counter threaded through. -/
def apply_tasks (rng : Nat → Nat) : Nat → StageAggregator →
    List (TaskInfo × TaskMetricsData) → StageAggregator × Nat
  | draws, agg, [] => (agg, draws)
  | draws, agg, t :: ts =>
      apply_tasks rng (add_task rng draws agg t.1 t.2).2 (add_task rng draws agg t.1 t.2).1 ts

/-- While the reservoir stays below capacity, it holds every observed task
duration, in arrival order. -/
theorem apply_tasks_reservoir_exact (rng : Nat → Nat) :
    ∀ (tasks : List (TaskInfo × TaskMetricsData)) (draws : Nat) (agg : StageAggregator),
      agg.duration_reservoir.length + tasks.length ≤ RESERVOIR_SIZE →
      (apply_tasks rng draws agg tasks).1.duration_reservoir
        = agg.duration_reservoir ++ tasks.map (fun t => task_duration t.1)
  | [], draws, agg, h => by simp [apply_tasks]
  | t :: ts, draws, agg, h => by
      have hlen : agg.duration_reservoir.length < RESERVOIR_SIZE := by
        simp only [List.length_cons] at h
        omega
      have hres : (add_task rng draws agg t.1 t.2).1.duration_reservoir
          = agg.duration_reservoir ++ [task_duration t.1] := by
        simp only [add_task]
        rw [if_pos hlen]
      have hlen2 : (add_task rng draws agg t.1 t.2).1.duration_reservoir.length + ts.length
          ≤ RESERVOIR_SIZE := by
        rw [hres]
        simp only [List.length_append, List.length_cons, List.length_nil] at h ⊢
        omega
      have ih := apply_tasks_reservoir_exact rng ts (add_task rng draws agg t.1 t.2).2
        (add_task rng draws agg t.1 t.2).1 hlen2
      simp only [apply_tasks]
      rw [ih, hres]
      simp

/-- Nonintegral interpolation position: `percentile` computes exactly the
formula the specification writes. -/
theorem percentile_nonintegral_eq_spec {S : List Nat} (hne : S ≠ []) {p : ℚ}
    (hp0 : 0 ≤ p) (hp1 : p ≤ 100)
    (hint : (((pct_k S p).floor : ℚ)) ≠ pct_k S p) :
    percentile S p = spec_percentile_formula S p := by
  have hk0 : 0 ≤ pct_k S p := pct_k_nonneg hne hp0
  have hk1 : pct_k S p ≤ (S.length : ℚ) - 1 := pct_k_le hne hp1
  have hfl0 : (0 : ℤ) ≤ (pct_k S p).floor := by
    rw [rat_floor_eq]
    exact Int.le_floor.mpr (by exact_mod_cast hk0)
  have hfcast : ((pct_f S p : ℚ)) = (((pct_k S p).floor : ℤ) : ℚ) := pct_f_cast hne hp0
  have hflt : (((pct_k S p).floor : ℤ) : ℚ) < pct_k S p := by
    rcases lt_or_eq_of_le (by rw [rat_floor_eq]; exact Int.floor_le (pct_k S p) :
      (((pct_k S p).floor : ℤ) : ℚ) ≤ pct_k S p) with h | h
    · exact h
    · exact absurd h hint
  have hceil : (pct_k S p).ceil = (pct_k S p).floor + 1 := by
    rw [rat_ceil_eq, rat_floor_eq] at *
    have ha : ⌊pct_k S p⌋ < ⌈pct_k S p⌉ := by
      have hb := Int.le_ceil (pct_k S p)
      exact_mod_cast lt_of_lt_of_le hflt hb
    have hc := Int.ceil_le_floor_add_one (pct_k S p)
    omega
  have hlen : 0 < S.length := List.length_pos.mpr hne
  have hkne : pct_k S p ≠ (S.length : ℚ) - 1 := by
    intro he
    apply hint
    rw [he, rat_floor_eq]
    have hcast : ((S.length : ℚ)) - 1 = (((S.length - 1 : ℕ)) : ℚ) := by
      push_cast [Nat.cast_sub hlen]
      ring
    rw [hcast, Int.floor_natCast]
    push_cast
    rfl
  have hklt : pct_k S p < (S.length : ℚ) - 1 := lt_of_le_of_ne hk1 hkne
  have hfn : pct_f S p + 1 < S.length := by
    have h1 : ((pct_f S p : ℚ)) < (S.length : ℚ) - 1 :=
      lt_of_le_of_lt (pct_f_le_k hne hp0) hklt
    have h2 : ((pct_f S p : ℚ)) + 1 < (S.length : ℚ) := by linarith
    exact_mod_cast h2
  have hcc : pct_c S p = pct_f S p + 1 := by
    unfold pct_c
    rw [if_pos hfn]
  have hfc : pct_f S p ≠ pct_c S p := by omega
  have hceilNat : (pct_k S p).ceil.toNat = pct_f S p + 1 := by
    rw [hceil]
    unfold pct_f
    omega
  have hfloorNat : (pct_k S p).floor.toNat = pct_f S p := rfl
  rw [percentile_eq_body hne, if_neg hfc, hcc]
  unfold spec_percentile_formula
  dsimp only
  rw [show ((S.length : ℚ) - 1) * (p / 100) = pct_k S p from rfl,
    hceilNat, hfloorNat, hceil]
  have hfq : (((pct_k S p).floor : ℤ) : ℚ) = ((pct_f S p : ℚ)) := hfcast.symm
  push_cast [hfq]
  ring

/-- Integral interpolation position: `percentile` returns the entry at `k`. -/
theorem percentile_integral_eq_entry {S : List Nat} (hne : S ≠ []) {p : ℚ}
    (hp0 : 0 ≤ p)
    (hint : (((pct_k S p).floor : ℚ)) = pct_k S p) :
    percentile S p = (S.getD (pct_f S p) 0 : ℚ) := by
  rw [percentile_eq_body hne]
  by_cases hfc : pct_f S p = pct_c S p
  · rw [if_pos hfc]
  · rw [if_neg hfc]
    have hcc : pct_c S p = pct_f S p + 1 := by
      have h1 := pct_c_le_f_add_one S p
      have h2 := pct_f_le_c S p
      omega
    have hkf : ((pct_f S p : ℚ)) = pct_k S p := by
      rw [pct_f_cast hne hp0]
      exact hint
    rw [hcc, ← hkf]
    push_cast
    ring

/-- The two tasks of spec scenario 7 (durations 400 ms and 500 ms). -/
def c5_task1 : TaskInfo := ⟨"1", 1001100, 1001500, false⟩

def c5_task2 : TaskInfo := ⟨"1", 1001100, 1001600, false⟩

/-- Task metrics with all numeric fields 0. -/
def tm_zero : TaskMetricsData := ⟨0, 0, 0, 0, 0, 0, 0, 0, 0⟩

/-- Aggregator state after the two tasks of scenario 7. -/
def c5_agg : StageAggregator :=
  (apply_tasks rng0 0 (StageAggregator.init 0 "s0" 2 (some 1001000))
    [(c5_task1, tm_zero), (c5_task2, tm_zero)]).1

/-- C5 counterexample: the specification's formula
`q = S[⌊k⌋]·(⌈k⌉−k) + S[⌈k⌉]·(k−⌊k⌋)`, read literally, evaluates to 0
whenever `k` is an integer (both weights vanish), while the code returns the
entry `S[k]`: at the reachable input `S = [100, 200, 300]`, `p = 50`
(so `k = 1`) the code yields 200 and the formula yields 0. -/
theorem c5_counterexample_integral_k :
    percentile [100, 200, 300] 50 = 200 ∧
    spec_percentile_formula [100, 200, 300] 50 = 0 := by
  have hk : ((([100, 200, 300] : List Nat).length : ℚ) - 1) * ((50 : ℚ) / 100) = 1 := by
    norm_num
  constructor
  · unfold percentile
    norm_num [rat_floor_eq]
  · unfold spec_percentile_formula
    dsimp only
    rw [hk, rat_floor_eq, rat_ceil_eq]
    norm_num

/-- C5, amended: percentile `p` over the sorted reservoir `S` is computed with
`k = (len−1)·p/100` as `q = S[⌊k⌋]·(⌈k⌉−k) + S[⌈k⌉]·(k−⌊k⌋)` when `k` is not
an integer, and as `q = S[k]` when `k` is an integer (where the literal
formula would degenerate to 0); when a stage observes at most R = 1000 tasks
the reservoir holds every duration, in order, so the percentiles are exact —
in particular, for exactly two task durations 400 ms and 500 ms the frozen
stage has min = 400, max = 500, median = 450. -/
theorem c5_percentile_interpolation_amended :
    (∀ (S : List Nat) (p : ℚ), S ≠ [] → 0 ≤ p → p ≤ 100 →
      (((((pct_k S p).floor : ℤ) : ℚ) ≠ pct_k S p →
          percentile S p = spec_percentile_formula S p) ∧
       ((((pct_k S p).floor : ℤ) : ℚ) = pct_k S p →
          percentile S p = (S.getD (pct_f S p) 0 : ℚ)))) ∧
    (∀ (rng : Nat → Nat) (draws : Nat) (sid : Int) (name : String) (nt : Int)
        (ts : Option Int) (tasks : List (TaskInfo × TaskMetricsData)),
      tasks.length ≤ RESERVOIR_SIZE →
      (apply_tasks rng draws (StageAggregator.init sid name nt ts)
          tasks).1.duration_reservoir
        = tasks.map (fun t => task_duration t.1)) ∧
    ((to_stage_metrics c5_agg).task_duration_min_ms = 400 ∧
     (to_stage_metrics c5_agg).task_duration_max_ms = 500 ∧
     (to_stage_metrics c5_agg).task_duration_median_ms = 450) := by
  refine ⟨?_, ?_, ?_⟩
  · intro S p hne hp0 hp1
    exact ⟨percentile_nonintegral_eq_spec hne hp0 hp1,
      percentile_integral_eq_entry hne hp0⟩
  · intro rng draws sid name nt ts tasks hlen
    have h := apply_tasks_reservoir_exact rng tasks draws
      (StageAggregator.init sid name nt ts) (by simpa [StageAggregator.init] using hlen)
    simpa [StageAggregator.init] using h
  · have hagg : c5_agg.duration_reservoir = [400, 500] := by decide
    have hmin : c5_agg.duration_min = some 400 := by decide
    have hmax : c5_agg.duration_max = 500 := by decide
    have hsort : List.insertionSort (· ≤ ·) ([400, 500] : List Nat) = [400, 500] := by decide
    have hpct : percentile [400, 500] 50 = 450 := by
      unfold percentile
      norm_num [rat_floor_eq]
    refine ⟨?_, ?_, ?_⟩
    · simp [to_stage_metrics, hmin]
    · simp [to_stage_metrics, hmax]
    · simp only [to_stage_metrics, hagg, hsort]
      norm_num [hpct, pyInt, rat_floor_eq]

theorem c5_percentile_interpolation_amended_witness :
    percentile [400, 500] 50 = spec_percentile_formula [400, 500] 50 :=
  (c5_percentile_interpolation_amended.1 [400, 500] 50 (by decide)
      (by norm_num) (by norm_num)).1
    (by norm_num [pct_k, rat_floor_eq])

end SparkMap
